import Mathlib

/-!
Verification development for the Flux probabilistic demand-forecasting engine
(`apps/api/src/services/forecasting/bayesian.py`, `apps/api/src/services/forecast.py`,
`apps/api/src/services/features.py`).

The Python code is shallowly embedded: floats become rationals, pandas frames
become lists of records, dates become natural-number day ordinals whose
day-of-week is the ordinal modulo 7, and the external library routines that are
not part of the repository (the numpy global pseudo-random generator behind
`scipy.stats.nbinom.rvs`, and `numpy.exp`) are passed in as explicit function
parameters.  The numpy generator is modelled as a deterministic function of an
explicit state of type Nat that is threaded through each sampling call, exactly
mirroring the global-state discipline of `numpy.random`.
-/

namespace Flux

/-- `GammaParams` from `bayesian.py`: shape/rate pair of a Gamma distribution. -/
structure GammaParams where
  alpha : ℚ
  beta : ℚ
deriving DecidableEq, Repr

/-- `GammaParams.mean` property from `bayesian.py`. -/
def GammaParams.mean (p : GammaParams) : ℚ := p.alpha / p.beta

/-- `BayesianForecaster` state: the weak global prior and the dictionary of
category priors (modelled as a function to `Option`, mirroring a Python dict). -/
structure BayesianForecaster where
  global_prior : GammaParams
  category_priors : String → Option GammaParams

/-- `BayesianForecaster.__init__(global_alpha, global_beta)`: fresh forecaster,
empty category-prior dictionary. -/
def mkForecaster (global_alpha global_beta : ℚ) : BayesianForecaster :=
  ⟨⟨global_alpha, global_beta⟩, fun _ => none⟩

/-- `BayesianForecaster()` with the default arguments `global_alpha=2.0,
global_beta=0.5`, as constructed by `ForecastService.__init__`. -/
def defaultForecaster : BayesianForecaster := mkForecaster 2 (1/2)

/-- `BayesianForecaster.learn_priors(category_data)`: for each `(cat, data)`
entry, store the global prior unchanged when `data` is empty, otherwise the
conjugate update `alpha + sum(data), beta + len(data)` of the global prior. -/
def learnStep (acc : BayesianForecaster) (cd : String × List ℚ) : BayesianForecaster :=
  let p : GammaParams :=
    if cd.2 = [] then acc.global_prior
    else ⟨acc.global_prior.alpha + cd.2.sum, acc.global_prior.beta + cd.2.length⟩
  { acc with category_priors := fun c => if c = cd.1 then some p else acc.category_priors c }

def learnPriors (f : BayesianForecaster) (categoryData : List (String × List ℚ)) :
    BayesianForecaster :=
  categoryData.foldl learnStep f

/-- Prior selection in `predict_item`:
`if category and category in self.category_priors` (note that in Python an
empty string is falsy, hence the explicit check against `""`). -/
def selectPrior (f : BayesianForecaster) (category : Option String) : GammaParams :=
  match category with
  | none => f.global_prior
  | some c =>
    if c = "" then f.global_prior
    else match f.category_priors c with
      | some p => p
      | none => f.global_prior

/-- `multipliers.get(dow, 1.0)`: first-match dictionary lookup with default 1. -/
def mget : List (ℕ × ℚ) → ℕ → ℚ
  | [], _ => 1
  | p :: rest, d => if p.1 = d then p.2 else mget rest d

/-- The flat profile `{i: 1.0 for i in range(7)}`. -/
def flatProfile : List (ℕ × ℚ) := (List.range 7).map (fun i => (i, (1 : ℚ)))

/-- De-seasonalization loop of `predict_item`: zip history with its day-of-week
labels, skip points whose multiplier is below 0.01, divide the rest. -/
def deseasonalize (mult : List (ℕ × ℚ)) (hist : List ℚ) (dows : List ℕ) : List ℚ :=
  (hist.zip dows).filterMap (fun yd =>
    let m := mget mult yd.2
    if m < 1/100 then none else some (yd.1 / m))

/-- Conjugate posterior update of `predict_item`:
`post_alpha = prior.alpha + sum_y_prime`, `post_beta = prior.beta + n`. -/
def posteriorParams (prior : GammaParams) (dh : List ℚ) : GammaParams :=
  ⟨prior.alpha + dh.sum, prior.beta + dh.length⟩

/-- Negative-Binomial parameters used by `predict_item`:
`nb_n = post_alpha`, `nb_p = post_beta / (post_beta + 1.0)`. -/
def nbParams (post : GammaParams) : ℚ × ℚ :=
  (post.alpha, post.beta / (post.beta + 1))

/-- `np.sort` stand-in: ascending insertion sort on rationals. -/
def sortAsc (xs : List ℚ) : List ℚ := List.insertionSort (· ≤ ·) xs

/-- Linear interpolation at fractional position `h` into the sorted list `s`,
the core of `numpy.percentile` with the default linear interpolation mode. -/
def interpAt (s : List ℚ) (h : ℚ) : ℚ :=
  let i := (⌊h⌋).toNat
  let lo := s.getD i 0
  let hi := s.getD (min (i+1) (s.length - 1)) 0
  lo + (h - (i : ℚ)) * (hi - lo)

/-- `np.percentile(xs, q)` with linear interpolation: interpolate at position
`q * (n - 1) / 100` into the sorted sample list. -/
def percentile (xs : List ℚ) (q : ℚ) : ℚ :=
  interpAt (sortAsc xs) (q * ((xs.length : ℚ) - 1) / 100)

/-- `np.mean(xs)` (the mean of an empty list is left as 0 here; the code always
passes 10000 samples). -/
def listMean (xs : List ℚ) : ℚ := xs.sum / xs.length

/-- `ForecastDistribution` from `bayesian.py`.  Dates are day ordinals.  The
`logic_trigger` string is modelled structurally by the two boolean conditions
the code formats into it (`abs(m - 1.0) > 0.1` and `n < 5`). -/
structure ForecastDistribution where
  date : ℕ
  mean : ℚ
  p10 : ℚ
  p50 : ℚ
  p90 : ℚ
  p99 : ℚ
  confidence_score : ℚ
  trigger_seasonality : Bool
  trigger_coldStart : Bool
deriving DecidableEq, Repr

/-- One iteration of the re-seasonalization loop of `predict_item`: scale the
base Negative-Binomial samples by the day-of-week multiplier `m` and report the
empirical mean and percentiles of the scaled sample set. -/
def mkForecast (dateN : ℕ) (m : ℚ) (samples : List ℕ) (conf : ℚ) (n : ℕ) :
    ForecastDistribution :=
  let scaled := samples.map (fun s : ℕ => (s : ℚ) * m)
  { date := dateN
    mean := listMean scaled
    p10 := percentile scaled 10
    p50 := percentile scaled 50
    p90 := percentile scaled 90
    p99 := percentile scaled 99
    confidence_score := conf
    trigger_seasonality := decide ((1 : ℚ)/10 < |m - 1|)
    trigger_coldStart := decide (n < 5) }

/-- The `for date_str, dow in zip(future_dates, future_dows)` loop of
`predict_item`, threading the generator state through the successive
`stats.nbinom.rvs(nb_n, nb_p, size=10000)` calls.  `draw state r p size`
returns the samples and the advanced generator state. -/
def reseasonalize (draw : ℕ → ℚ → ℚ → ℕ → List ℕ × ℕ) (nbn nbp conf : ℚ) (n : ℕ)
    (mult : List (ℕ × ℚ)) : List (ℕ × ℕ) → ℕ → List ForecastDistribution × ℕ
  | [], rng => ([], rng)
  | dd :: rest, rng =>
    let res := draw rng nbn nbp 10000
    let fc := mkForecast dd.1 (mget mult dd.2) res.1 conf n
    let next := reseasonalize draw nbn nbp conf n mult rest res.2
    (fc :: next.1, next.2)

/-- `BayesianForecaster.predict_item`.  `draw` models the numpy generator
behind `scipy.stats.nbinom.rvs` (Negative-Binomial support is the natural
numbers, hence `List ℕ`), `expQ` models `numpy.exp`, and `rngIn` is the ambient
numpy global generator state on entry; the call `np.random.seed(42)` replaces
it with the fixed state 42 before any sampling. -/
def predictItem (f : BayesianForecaster) (itemHistory : List ℚ) (historyDows : List ℕ)
    (futureDates : List ℕ) (futureDows : List ℕ)
    (category : Option String) (seasonalMultipliers : Option (List (ℕ × ℚ)))
    (draw : ℕ → ℚ → ℚ → ℕ → List ℕ × ℕ) (expQ : ℚ → ℚ) (rngIn : ℕ) :
    List ForecastDistribution × ℕ :=
  let _ := rngIn
  let prior := selectPrior f category
  let mult := match seasonalMultipliers with
    | none => flatProfile
    | some ms => if ms = [] then flatProfile else ms
  let dh := deseasonalize mult itemHistory historyDows
  let n := dh.length
  let post := posteriorParams prior dh
  let nb := nbParams post
  let conf := 1 / (1 + expQ (-(((n : ℚ)) - 5) / 5))
  reseasonalize draw nb.1 nb.2 conf n mult (futureDates.zip futureDows) 42

/-- One row of the reindexed daily series built by
`FeatureEngineeringService.create_training_dataset` just before the
unconstraining step: raw quantity, merged stockout flag and promotion flag for
one calendar day.  The row at list index `i` stands for the calendar day
`minDate + i`, so rows at indices congruent modulo 7 share a day-of-week. -/
structure DayRow where
  quantity : ℚ
  stockout : Bool
  promo : Bool
deriving DecidableEq, Repr

instance : Inhabited DayRow := ⟨⟨0, false, false⟩⟩

/-- The same-day-of-week non-stockout reference window of the imputation loop:
rows `j` with `lookback_start = i - 56 <= j < lookback_end = i - 1`, the same
day-of-week as `i`, and `stockout == False`; their raw quantities. -/
def lookbackVals (rows : List DayRow) (i : ℕ) : List ℚ :=
  (List.range rows.length).filterMap (fun (j : ℕ) =>
    if (i : ℤ) - 56 ≤ (j : ℤ) ∧ (j : ℤ) < (i : ℤ) - 1 ∧ j % 7 = i % 7 ∧
        (rows.getD j default).stockout = false
    then some (rows.getD j default).quantity else none)

/-- `pandas.Series.median`: middle element of the sorted values for an odd
count, average of the two middle elements for an even count. -/
def median (xs : List ℚ) : ℚ :=
  let s := sortAsc xs
  let n := s.length
  if n % 2 = 1 then s.getD (n / 2) 0
  else (s.getD (n / 2 - 1) 0 + s.getD (n / 2) 0) / 2

/-- The demand-unconstraining step of `create_training_dataset` for the row at
index `i`: on a stockout day, impute `max(quantity, median(window))` when the
same-day-of-week window has at least 2 values, else fall back to
`quantity * 1.3`; non-stockout days keep their raw quantity.  The Python loop
mutates only the `adjusted_quantity` column while reading the untouched
`quantity` and `stockout` columns, so this per-row function is exact. -/
def adjustedQuantity (rows : List DayRow) (i : ℕ) : ℚ :=
  let r := rows.getD i default
  if r.stockout then
    let h := lookbackVals rows i
    if 2 ≤ h.length then max r.quantity (median h)
    else r.quantity * (13/10)
  else r.quantity

/-- One `TransactionItem` row joined with its `Transaction`, as selected by the
queries in `features.py` and `forecast.py`: transaction date (day ordinal),
menu item name, quantity, and the transaction-level stockout/promotion flags. -/
structure TxRow where
  date : ℕ
  name : String
  qty : ℚ
  stockout : Bool
  promo : Bool
deriving DecidableEq, Repr

/-- The database rows of one restaurant that the forecasting path reads:
menu items (name and id), transaction-item rows, and the
`InventorySnapshot` rows carrying `stockout_flag == 'Y'` as
`(menu_item_id, date)` pairs. -/
structure DB where
  menuItems : List (String × ℕ)
  txRows : List TxRow
  snapshots : List (ℕ × ℕ)

/-- One output row of the SQL `group_by(transaction_date, menu_item_name)` in
`create_training_dataset`: `sum(quantity)`, `bool_or(stockout_occurred)`,
`bool_or(is_promo)`. -/
structure GroupedRow where
  date : ℕ
  name : String
  qty : ℚ
  stockout : Bool
  promo : Bool
deriving DecidableEq, Repr

/-- The SQL aggregation of `create_training_dataset`: group the filtered
transaction rows by `(date, name)` taking the sum of quantities and the
disjunction of the flags. -/
def groupRows (rows : List TxRow) : List GroupedRow :=
  ((rows.map (fun r => (r.date, r.name))).dedup).map (fun k =>
    let g := rows.filter (fun r => r.date = k.1 ∧ r.name = k.2)
    ⟨k.1, k.2, (g.map (·.qty)).sum, g.any (·.stockout), g.any (·.promo)⟩)

/-- One row of the DataFrame returned by `create_training_dataset` after the
essential-lag `dropna`.  The `hours_open` and calendar-`month` columns of the
source are not modelled (they are never read by the forecasting path), and
optional lag columns that `dropna` tolerates as NaN are `Option`-valued. -/
structure FeatRow where
  date : ℕ
  quantity : ℚ
  stockout : Bool
  promo : Bool
  adjusted_quantity : ℚ
  lag_1 : ℚ
  lag_7 : ℚ
  lag_28 : Option ℚ
  roll_7_mean : ℚ
  roll_28_mean : Option ℚ
  dow : ℕ
  is_weekend : Bool
deriving DecidableEq, Repr

/-- The reindexed daily series of `create_training_dataset`: one `DayRow` per
day of the full `minD .. minD + len - 1` range, zero-filled where no grouped
row exists for the date.  It is only applied to groups whose dates are
pairwise distinct (the duplicate-label case errors out beforehand), so
`find?` retrieves the unique row of each date. -/
def buildSeries (groupedM : List GroupedRow) (minD len : ℕ) : List DayRow :=
  (List.range len).map (fun (i : ℕ) =>
    match groupedM.find? (fun (g : GroupedRow) => g.date = minD + i) with
    | some g => ⟨g.qty, g.stockout, g.promo⟩
    | none => ⟨0, false, false⟩)

/-- The feature-generation tail of `create_training_dataset`: unconstrain the
series, add the lag, rolling and calendar columns, and drop the rows whose
essential lags (`lag_1`, `lag_7`, `roll_7_mean`, i.e. indices below 7) are
undefined. -/
def featureRows (groupedM : List GroupedRow) (minD len : ℕ) : List FeatRow :=
  let series := buildSeries groupedM minD len
  let adj := (List.range len).map (fun i => adjustedQuantity series i)
  (List.range len).filterMap (fun i =>
    if 7 ≤ i then some
      { date := minD + i
        quantity := (series.getD i default).quantity
        stockout := (series.getD i default).stockout
        promo := (series.getD i default).promo
        adjusted_quantity := adj.getD i 0
        lag_1 := adj.getD (i - 1) 0
        lag_7 := adj.getD (i - 7) 0
        lag_28 := if 28 ≤ i then some (adj.getD (i - 28) 0) else none
        roll_7_mean := (((List.range 7).map (fun k => adj.getD (i - 7 + k) 0)).sum) / 7
        roll_28_mean := if 28 ≤ i then
          some ((((List.range 28).map (fun k => adj.getD (i - 28 + k) 0)).sum) / 28)
        else none
        dow := (minD + i) % 7
        is_weekend := decide ((minD + i) % 7 = 5 ∨ (minD + i) % 7 = 6) }
    else none)

deriving instance DecidableEq for Except

/-- The message of the `ValueError` that `pandas.DataFrame.reindex` raises
when the date index has duplicate labels. -/
def reindexError : String := "cannot reindex on an axis with duplicate labels"

/-- `FeatureEngineeringService.create_training_dataset(restaurant_id,
menu_item_id, days_history)`.  Dates are day ordinals and day-of-week is the
ordinal modulo 7.  When an item id is given but resolves to no `MenuItem`, the
source returns an empty frame; when it resolves, the transaction rows are
filtered by the item name and the manually flagged `InventorySnapshot`
stockout dates of that id are merged in.  The series is then reindexed over
the full min-to-max date range with zero-quantity fill: `df.reindex(full_idx)`
raises `ValueError` when the date index has duplicate labels, which can happen
exactly when no single item name is in scope (no item filter, two items sold
on the same date) — modelled as `Except.error reindexError`.  On the unique
path the series is unconstrained via `adjustedQuantity`, given lag and rolling
features, and rows lacking `lag_1`, `lag_7` or `roll_7_mean` (indices below 7)
are dropped. -/
def createTrainingDataset (db : DB) (today : ℕ) (menuItemId : Option ℕ)
    (daysHistory : ℕ) : Except String (List FeatRow) :=
  let cutoff : ℤ := (today : ℤ) - daysHistory
  let resolved : Option (Option String) :=
    match menuItemId with
    | none => some none
    | some iid =>
      match db.menuItems.find? (fun mi => mi.2 = iid) with
      | none => none
      | some mi => some (some mi.1)
  match resolved with
  | none => Except.ok []
  | some target =>
    let rows := db.txRows.filter (fun r => decide (cutoff ≤ (r.date : ℤ)) &&
      (match target with | some nm => r.name == nm | none => true))
    let grouped := groupRows rows
    if grouped = [] then Except.ok []
    else
      let snapDates : List ℕ :=
        match menuItemId with
        | some iid => (db.snapshots.filter (fun s => s.1 = iid ∧ cutoff ≤ (s.2 : ℤ))).map (·.2)
        | none => []
      let groupedM := grouped.map (fun g =>
        if target.isSome ∧ g.date ∈ snapDates then { g with stockout := true } else g)
      if (groupedM.map (·.date)).Nodup then
        let minD := ((groupedM.map (·.date)).min?).getD 0
        let maxD := ((groupedM.map (·.date)).max?).getD 0
        Except.ok (featureRows groupedM minD (maxD + 1 - minD))
      else Except.error reindexError

/-- The rows of the reference series falling on day-of-week `i`
(`df[df["dow"] == i]` where `dow = index.dayofweek`); entries are
`(date, aggregated quantity)` pairs. -/
def dowRows (s : List (ℕ × ℚ)) (i : ℕ) : List (ℕ × ℚ) :=
  s.filter (fun r => r.1 % 7 = i)

/-- `ForecastService._calculate_seasonality(df)`: flat profile on an empty
frame or a zero overall mean; otherwise, per day-of-week, the raw multiplier
`dow_means.get(i, global_mean) / global_mean` (the dictionary default applies
to a day-of-week with no rows), shrinkage toward 1.0 for sparse days, and
capping into [0.3, 3.0].  No renormalization of the profile is performed.
(The `np.isnan` guard of the source cannot fire over the rationals.) -/
def calcSeasonality (s : List (ℕ × ℚ)) : List (ℕ × ℚ) :=
  if s = [] then flatProfile
  else
    let g := (s.map (·.2)).sum / s.length
    if g = 0 then flatProfile
    else
      (List.range 7).map (fun i =>
        let di := dowRows s i
        let m0 := (if di = [] then g else (di.map (·.2)).sum / di.length) / g
        let c := di.length
        let m1 := if c < 4 then 7/10 * m0 + 3/10 * 1
          else if c < 8 then 85/100 * m0 + 15/100 * 1
          else m0
        (i, max (3/10) (min m1 3)))

/-- `ForecastService._get_category_data(restaurant_id, category_name, days)`:
transaction rows of the last `days` days joined against the menu-item table by
name (the query has no category filter), returned as the per-date aggregated
series for seasonality together with the per-item-name quantity lists for
prior learning. -/
def getCategoryData (db : DB) (today : ℕ) (days : ℕ) :
    List (ℕ × ℚ) × List (String × List ℚ) :=
  let startDate : ℤ := (today : ℤ) - days
  let rows := db.txRows.filter (fun r => startDate ≤ (r.date : ℤ) ∧
    (db.menuItems.lookup r.name).isSome)
  if rows = [] then ([], [])
  else
    let names := (rows.map (·.name)).dedup
    let priorsData := names.map (fun nm =>
      (nm, (rows.filter (fun r => r.name = nm)).map (·.qty)))
    let dates := (rows.map (·.date)).dedup
    let agg := dates.map (fun d =>
      (d, ((rows.filter (fun r => r.date = d)).map (·.qty)).sum))
    (agg, priorsData)

/-- A persisted `DemandForecast` record as written by
`ForecastService.generate_forecasts` (the constant model-name string is not
modelled). -/
structure DemandForecastRec where
  menu_item_name : String
  forecast_date : ℕ
  predicted_quantity : ℚ
  p10_quantity : ℚ
  p50_quantity : ℚ
  p90_quantity : ℚ
deriving DecidableEq, Repr

/-- Two-decimal rounding used when persisting (`Decimal(f"{x:.2f}")`); the
float formatting of the source rounds ties to even, which no claim touches,
so round-half-up is used here. -/
def round2 (x : ℚ) : ℚ := ((⌊x * 100 + 1/2⌋ : ℤ) : ℚ) / 100

/-- `ForecastService.generate_forecasts(restaurant_id, menu_item_name,
days_ahead, category)`.  `today` models `date.today()`; `draw`, `expQ` and
`rngIn` model the external numpy generator and exponential exactly as in
`predictItem`.  Note the item lookup: `item_id = item.id if item else None`
falls back to `None` (no error) when the name does not resolve, a negative
`days_ahead` makes the `range` loop produce no future dates, and the pandas
`ValueError` possibly raised inside `create_training_dataset` propagates to
the caller (nothing is persisted in that case). -/
def generateForecasts (db : DB) (today : ℕ) (menuItemName : String)
    (daysAhead : ℤ) (category : Option String)
    (draw : ℕ → ℚ → ℚ → ℕ → List ℕ × ℕ) (expQ : ℚ → ℚ) (rngIn : ℕ) :
    Except String (List DemandForecastRec) :=
  let itemId : Option ℕ := db.menuItems.lookup menuItemName
  match createTrainingDataset db today itemId 365 with
  | Except.error e => Except.error e
  | Except.ok dfItem =>
  let catContext : String :=
    match category with
    | none => "Global"
    | some c => if c = "" then "Global" else c
  let catData := getCategoryData db today 90
  let seasonalityProfile := calcSeasonality catData.1
  let allItemSalesSamples := (catData.2.map (·.2)).flatten
  let forecaster :=
    if allItemSalesSamples = [] then defaultForecaster
    else learnPriors defaultForecaster [(catContext, allItemSalesSamples)]
  let history := dfItem.map (·.adjusted_quantity)
  let historyDows := dfItem.map (·.dow)
  let lastDate := if dfItem.isEmpty then today - 1
    else ((dfItem.map (·.date)).max?).getD (today - 1)
  let futureDates := (List.range daysAhead.toNat).map (fun k => lastDate + 1 + k)
  let futureDows := (List.range daysAhead.toNat).map (fun k => (lastDate + 1 + k) % 7)
  let forecastDists := (predictItem forecaster history historyDows futureDates futureDows
    (some catContext) (some seasonalityProfile) draw expQ rngIn).1
  Except.ok (forecastDists.enum.map (fun idxf =>
    { menu_item_name := menuItemName
      forecast_date := lastDate + idxf.1 + 1
      predicted_quantity := round2 idxf.2.mean
      p10_quantity := round2 idxf.2.p10
      p50_quantity := round2 idxf.2.p50
      p90_quantity := round2 idxf.2.p90 }))

/-- The reference window exactly as the specification words it: the
non-stockout observations within the preceding 8 weeks (days `i - 56` through
`i - 1`) that fall on the same day-of-week as day `i`.  This is the
specification-side counterpart of `lookbackVals` (whose date window has an
exclusive upper end `i - 1`); the two are proved equal. -/
def precedingSameDowVals (rows : List DayRow) (i : ℕ) : List ℚ :=
  (List.range rows.length).filterMap (fun (j : ℕ) =>
    if (i : ℤ) - 56 ≤ (j : ℤ) ∧ (j : ℤ) ≤ (i : ℤ) - 1 ∧ j % 7 = i % 7 ∧
        (rows.getD j default).stockout = false
    then some (rows.getD j default).quantity else none)

/-! ### Concrete fixtures used by witnesses and counterexamples -/

/-- A degenerate sampler: draws no samples and leaves the state unchanged. -/
def drawZero : ℕ → ℚ → ℚ → ℕ → List ℕ × ℕ := fun s _ _ _ => ([], s)

/-- A sampler returning three fixed samples, used to exercise the quantile
path. -/
def drawThree : ℕ → ℚ → ℚ → ℕ → List ℕ × ℕ := fun s _ _ _ => ([5, 0, 2], s + 1)

/-- A state-dependent sampler: the samples depend on the incoming generator
state, so any output difference between two ambient states would be visible. -/
def drawState : ℕ → ℚ → ℚ → ℕ → List ℕ × ℕ :=
  fun s _ _ k => ((List.range k).map (fun j => (s + j) % 7), s + k)

/-- A constant stand-in for the external exponential at the concrete inputs of
witnesses (its value is irrelevant to every verified property). -/
def expOne : ℚ → ℚ := fun _ => 1

/-- A seasonal profile with one effectively-closed day (multiplier below 0.01)
and one open day. -/
def prof0 : List (ℕ × ℚ) := [(0, 1/200), (1, 2)]

/-- A 15-day series whose last day is a stockout with two same-day-of-week,
non-stockout reference days (indices 0 and 7). -/
def rows0 : List DayRow :=
  [⟨10, false, false⟩, ⟨3, false, false⟩, ⟨3, false, false⟩, ⟨3, false, false⟩,
   ⟨3, false, false⟩, ⟨3, false, false⟩, ⟨3, false, false⟩,
   ⟨12, false, false⟩, ⟨3, false, false⟩, ⟨3, false, false⟩, ⟨3, false, false⟩,
   ⟨3, false, false⟩, ⟨3, false, false⟩, ⟨3, false, false⟩,
   ⟨2, true, false⟩]

/-- A restaurant with a single menu item and no transaction history. -/
def db0 : DB := ⟨[("Burger", 1)], [], []⟩

/-- A restaurant with one item sold on eight consecutive days, five units per
day, no stockouts. -/
def db1 : DB :=
  ⟨[("Burger", 1)],
   (List.range 8).map (fun d => ⟨d, "Burger", 5, false, false⟩),
   []⟩

/-- The first feature row produced for `db1` (index 7 of the series). -/
def fr1 : FeatRow :=
  { date := 7, quantity := 5, stockout := false, promo := false,
    adjusted_quantity := 5, lag_1 := 5, lag_7 := 5, lag_28 := none,
    roll_7_mean := 5, roll_28_mean := none, dow := 0, is_weekend := false }

/-- A small reference series: two distinct days on day-of-week 0 (dates 0 and
7 are both day-of-week 0 only when congruent; here dates 0, 7 share dow 0) and
one on day-of-week 1. -/
def s0 : List (ℕ × ℚ) := [(0, 4), (7, 0), (1, 1)]

/-! ### Helper lemmas about sorting and linear-interpolation percentiles -/

lemma sortAsc_sorted (xs : List ℚ) : (sortAsc xs).Sorted (· ≤ ·) :=
  List.sorted_insertionSort _ xs

lemma sortAsc_perm (xs : List ℚ) : List.Perm (sortAsc xs) xs :=
  List.perm_insertionSort _ xs

lemma sortAsc_length (xs : List ℚ) : (sortAsc xs).length = xs.length :=
  (sortAsc_perm xs).length_eq

lemma mem_sortAsc {a : ℚ} {xs : List ℚ} : a ∈ sortAsc xs ↔ a ∈ xs :=
  (sortAsc_perm xs).mem_iff

lemma getD_mem_of_lt {s : List ℚ} {i : ℕ} (h : i < s.length) : s.getD i 0 ∈ s := by
  rw [List.getD_eq_getElem?_getD, List.getElem?_eq_getElem h]
  exact List.getElem_mem h

lemma sorted_getD_mono {s : List ℚ} (hs : s.Sorted (· ≤ ·)) {a b : ℕ} (hab : a ≤ b)
    (hb : b < s.length) : s.getD a 0 ≤ s.getD b 0 := by
  have ha : a < s.length := lt_of_le_of_lt hab hb
  rw [List.getD_eq_getElem?_getD, List.getElem?_eq_getElem ha,
    List.getD_eq_getElem?_getD, List.getElem?_eq_getElem hb]
  simpa using hs.rel_get_of_le (a := ⟨a, ha⟩) (b := ⟨b, hb⟩) hab

lemma interpAt_floor_facts {h : ℚ} (h0 : 0 ≤ h) :
    ((⌊h⌋.toNat : ℚ) ≤ h ∧ h < (⌊h⌋.toNat : ℚ) + 1) := by
  have hfl : (0 : ℤ) ≤ ⌊h⌋ := Int.floor_nonneg.mpr h0
  have hcast : ((⌊h⌋.toNat : ℕ) : ℚ) = ((⌊h⌋ : ℤ) : ℚ) := by
    exact_mod_cast congrArg (fun z => ((z : ℤ) : ℚ)) (Int.toNat_of_nonneg hfl)
  refine ⟨?_, ?_⟩
  · rw [hcast]; exact Int.floor_le h
  · rw [hcast]; exact Int.lt_floor_add_one h

lemma interpAt_index_le {h : ℚ} {n : ℕ} (h0 : 0 ≤ h) (hn : h ≤ (n : ℚ) - 1) :
    ⌊h⌋.toNat ≤ n - 1 := by
  have h1 : 1 ≤ n := by
    by_contra hc
    have : n = 0 := by omega
    rw [this] at hn
    push_cast at hn
    linarith
  have h2 : ⌊h⌋ ≤ ⌊(n : ℚ) - 1⌋ := Int.floor_le_floor hn
  have h3 : ⌊((n : ℚ) - 1)⌋ = (n : ℤ) - 1 := by
    have he : ((n : ℚ) - 1) = (((n : ℤ) - 1 : ℤ) : ℚ) := by push_cast; ring
    rw [he, Int.floor_intCast]
  rw [h3] at h2
  omega

lemma interpAt_nonneg {s : List ℚ} (hs : s.Sorted (· ≤ ·)) (hmem : ∀ x ∈ s, 0 ≤ x)
    {h : ℚ} (h0 : 0 ≤ h) (hn : h ≤ (s.length : ℚ) - 1) : 0 ≤ interpAt s h := by
  have h1 : 1 ≤ s.length := by
    by_contra hc
    have : s.length = 0 := by omega
    rw [this] at hn; push_cast at hn; linarith
  have hf := interpAt_floor_facts h0
  have hidx := interpAt_index_le h0 hn
  set i := ⌊h⌋.toNat with hi
  have hilt : i < s.length := by omega
  have hminlt : min (i + 1) (s.length - 1) < s.length := by omega
  have hlo : 0 ≤ s.getD i 0 := hmem _ (getD_mem_of_lt hilt)
  have hdle : s.getD i 0 ≤ s.getD (min (i + 1) (s.length - 1)) 0 :=
    sorted_getD_mono hs (by omega) hminlt
  have hfrac : 0 ≤ h - (i : ℚ) := by linarith [hf.1]
  have : 0 ≤ (h - (i : ℚ)) * (s.getD (min (i + 1) (s.length - 1)) 0 - s.getD i 0) :=
    mul_nonneg hfrac (by linarith)
  simp only [interpAt]
  linarith

lemma interpAt_mono {s : List ℚ} (hs : s.Sorted (· ≤ ·)) {h1 h2 : ℚ}
    (h0 : 0 ≤ h1) (h12 : h1 ≤ h2) (hn : h2 ≤ (s.length : ℚ) - 1) :
    interpAt s h1 ≤ interpAt s h2 := by
  have hl1 : 1 ≤ s.length := by
    by_contra hc
    have : s.length = 0 := by omega
    rw [this] at hn; push_cast at hn; linarith
  have h02 : 0 ≤ h2 := h0.trans h12
  have hf1 := interpAt_floor_facts h0
  have hf2 := interpAt_floor_facts h02
  have hidx1 : ⌊h1⌋.toNat ≤ s.length - 1 := interpAt_index_le h0 (h12.trans hn)
  have hidx2 : ⌊h2⌋.toNat ≤ s.length - 1 := interpAt_index_le h02 hn
  have hii : ⌊h1⌋.toNat ≤ ⌊h2⌋.toNat := by
    have := Int.floor_le_floor h12
    omega
  have hilt1 : ⌊h1⌋.toNat < s.length := by omega
  have hilt2 : ⌊h2⌋.toNat < s.length := by omega
  have hminlt1 : min (⌊h1⌋.toNat + 1) (s.length - 1) < s.length := by omega
  have hminlt2 : min (⌊h2⌋.toNat + 1) (s.length - 1) < s.length := by omega
  have hd1 : s.getD ⌊h1⌋.toNat 0 ≤ s.getD (min (⌊h1⌋.toNat + 1) (s.length - 1)) 0 :=
    sorted_getD_mono hs (by omega) hminlt1
  have hd2 : s.getD ⌊h2⌋.toNat 0 ≤ s.getD (min (⌊h2⌋.toNat + 1) (s.length - 1)) 0 :=
    sorted_getD_mono hs (by omega) hminlt2
  simp only [interpAt]
  rcases Nat.lt_or_ge ⌊h1⌋.toNat ⌊h2⌋.toNat with hlt | hge
  · -- the two positions fall in different cells of the piecewise-linear curve
    have hA : s.getD ⌊h1⌋.toNat 0 + (h1 - (⌊h1⌋.toNat : ℚ)) *
        (s.getD (min (⌊h1⌋.toNat + 1) (s.length - 1)) 0 - s.getD ⌊h1⌋.toNat 0) ≤
        s.getD (min (⌊h1⌋.toNat + 1) (s.length - 1)) 0 := by
      have hle1 : h1 - (⌊h1⌋.toNat : ℚ) ≤ 1 := by linarith [hf1.2]
      nlinarith [hd1, hle1, hf1.1]
    have hB : s.getD (min (⌊h1⌋.toNat + 1) (s.length - 1)) 0 ≤ s.getD ⌊h2⌋.toNat 0 :=
      sorted_getD_mono hs (by omega) hilt2
    have hC : s.getD ⌊h2⌋.toNat 0 ≤ s.getD ⌊h2⌋.toNat 0 + (h2 - (⌊h2⌋.toNat : ℚ)) *
        (s.getD (min (⌊h2⌋.toNat + 1) (s.length - 1)) 0 - s.getD ⌊h2⌋.toNat 0) := by
      have hfrac2 : 0 ≤ h2 - (⌊h2⌋.toNat : ℚ) := by linarith [hf2.1]
      nlinarith [hd2, hfrac2]
    linarith
  · -- same cell: the interpolation is linear with a nonnegative slope
    have heq : ⌊h1⌋.toNat = ⌊h2⌋.toNat := by omega
    rw [← heq]
    have : (h1 - (⌊h1⌋.toNat : ℚ)) *
        (s.getD (min (⌊h1⌋.toNat + 1) (s.length - 1)) 0 - s.getD ⌊h1⌋.toNat 0) ≤
        (h2 - (⌊h1⌋.toNat : ℚ)) *
        (s.getD (min (⌊h1⌋.toNat + 1) (s.length - 1)) 0 - s.getD ⌊h1⌋.toNat 0) :=
      mul_le_mul_of_nonneg_right (by linarith) (by linarith)
    linarith

lemma interpAt_nil (h : ℚ) : interpAt [] h = 0 := by
  simp [interpAt]

lemma percentile_nonneg {xs : List ℚ} {q : ℚ} (hq0 : 0 ≤ q) (hq1 : q ≤ 100)
    (hx : ∀ x ∈ xs, 0 ≤ x) : 0 ≤ percentile xs q := by
  unfold percentile
  rcases eq_or_ne xs [] with rfl | hne
  · simp [sortAsc, interpAt_nil]
  · have hlen : 1 ≤ xs.length := List.length_pos.mpr hne
    have hl : (1 : ℚ) ≤ (xs.length : ℚ) := by exact_mod_cast hlen
    have h0 : 0 ≤ q * ((xs.length : ℚ) - 1) / 100 :=
      div_nonneg (mul_nonneg hq0 (by linarith)) (by norm_num)
    refine interpAt_nonneg (sortAsc_sorted xs) ?_ h0 ?_
    · intro x hxm; exact hx x (mem_sortAsc.mp hxm)
    · rw [sortAsc_length]
      rw [div_le_iff₀ (by norm_num : (0 : ℚ) < 100)]
      nlinarith

lemma percentile_mono {xs : List ℚ} {q1 q2 : ℚ} (h0 : 0 ≤ q1) (h12 : q1 ≤ q2)
    (h100 : q2 ≤ 100) : percentile xs q1 ≤ percentile xs q2 := by
  unfold percentile
  rcases eq_or_ne xs [] with rfl | hne
  · simp [sortAsc, interpAt_nil]
  · have hlen : 1 ≤ xs.length := List.length_pos.mpr hne
    have hl : (1 : ℚ) ≤ (xs.length : ℚ) := by exact_mod_cast hlen
    refine interpAt_mono (sortAsc_sorted xs)
      (div_nonneg (mul_nonneg h0 (by linarith)) (by norm_num)) ?_ ?_
    · have : 0 ≤ ((xs.length : ℚ) - 1) / 100 := div_nonneg (by linarith) (by norm_num)
      calc q1 * ((xs.length : ℚ) - 1) / 100 = q1 * (((xs.length : ℚ) - 1) / 100) := by ring
      _ ≤ q2 * (((xs.length : ℚ) - 1) / 100) := mul_le_mul_of_nonneg_right h12 this
      _ = q2 * ((xs.length : ℚ) - 1) / 100 := by ring
    · rw [sortAsc_length]
      rw [div_le_iff₀ (by norm_num : (0 : ℚ) < 100)]
      nlinarith

/-! ### Helper lemmas about the forecaster -/

lemma mget_nonneg {l : List (ℕ × ℚ)} (h : ∀ p ∈ l, 0 ≤ p.2) (d : ℕ) : 0 ≤ mget l d := by
  induction l with
  | nil => norm_num [mget]
  | cons a t ih =>
    simp only [mget]
    split
    · exact h a (List.mem_cons_self a t)
    · exact ih (fun p hp => h p (List.mem_cons_of_mem a hp)) 

lemma flatProfile_nonneg : ∀ p ∈ flatProfile, 0 ≤ p.2 := by
  intro p hp
  simp only [flatProfile, List.mem_map] at hp
  obtain ⟨i, _, rfl⟩ := hp
  norm_num

lemma mkForecast_ordered (dateN : ℕ) (m : ℚ) (samples : List ℕ) (conf : ℚ) (n : ℕ)
    (hm : 0 ≤ m) :
    0 ≤ (mkForecast dateN m samples conf n).p10 ∧
    (mkForecast dateN m samples conf n).p10 ≤ (mkForecast dateN m samples conf n).p50 ∧
    (mkForecast dateN m samples conf n).p50 ≤ (mkForecast dateN m samples conf n).p90 ∧
    (mkForecast dateN m samples conf n).p90 ≤ (mkForecast dateN m samples conf n).p99 ∧
    0 ≤ (mkForecast dateN m samples conf n).mean := by
  have hsc : ∀ x ∈ samples.map (fun s : ℕ => (s : ℚ) * m), 0 ≤ x := by
    intro x hx
    obtain ⟨s, _, rfl⟩ := List.mem_map.1 hx
    exact mul_nonneg (by exact_mod_cast Nat.zero_le s) hm
  simp only [mkForecast]
  refine ⟨?_, ?_, ?_, ?_, ?_⟩
  · exact percentile_nonneg (by norm_num) (by norm_num) hsc
  · exact percentile_mono (by norm_num) (by norm_num) (by norm_num)
  · exact percentile_mono (by norm_num) (by norm_num) (by norm_num)
  · exact percentile_mono (by norm_num) (by norm_num) (by norm_num)
  · simp only [listMean]
    have : 0 ≤ (samples.map (fun s : ℕ => (s : ℚ) * m)).sum := List.sum_nonneg hsc
    positivity

lemma mem_reseasonalize {draw : ℕ → ℚ → ℚ → ℕ → List ℕ × ℕ} {nbn nbp conf : ℚ} {n : ℕ}
    {mult : List (ℕ × ℚ)} {dds : List (ℕ × ℕ)} {rng : ℕ} {fc : ForecastDistribution}
    (hfc : fc ∈ (reseasonalize draw nbn nbp conf n mult dds rng).1) :
    ∃ dd rng2, dd ∈ dds ∧
      fc = mkForecast dd.1 (mget mult dd.2) (draw rng2 nbn nbp 10000).1 conf n := by
  induction dds generalizing rng with
  | nil => simp [reseasonalize] at hfc
  | cons a t ih =>
    simp only [reseasonalize, List.mem_cons] at hfc
    rcases hfc with h | h
    · exact ⟨a, rng, List.mem_cons_self a t, h⟩
    · obtain ⟨dd, rng2, hdd, heq⟩ := ih h
      exact ⟨dd, rng2, List.mem_cons_of_mem a hdd, heq⟩

lemma reseasonalize_length (draw : ℕ → ℚ → ℚ → ℕ → List ℕ × ℕ) (nbn nbp conf : ℚ) (n : ℕ)
    (mult : List (ℕ × ℚ)) (dds : List (ℕ × ℕ)) (rng : ℕ) :
    (reseasonalize draw nbn nbp conf n mult dds rng).1.length = dds.length := by
  induction dds generalizing rng with
  | nil => rfl
  | cons a t ih => simp [reseasonalize, ih]

lemma filterMap_ite_eq_filter_map {α β : Type} (p : α → Prop) [DecidablePred p]
    (g : α → β) (l : List α) :
    l.filterMap (fun a => if p a then none else some (g a)) =
      (l.filter (fun a => decide (¬ p a))).map g := by
  induction l with
  | nil => rfl
  | cons a t ih =>
    by_cases h : p a <;> simp [List.filterMap_cons, List.filter_cons, h, ih]

lemma deseasonalize_eq_filter_map (mult : List (ℕ × ℚ)) (hist : List ℚ) (dows : List ℕ) :
    deseasonalize mult hist dows =
      ((hist.zip dows).filter (fun yd => decide ((1 : ℚ)/100 ≤ mget mult yd.2))).map
        (fun yd => yd.1 / mget mult yd.2) := by
  have hpred : (fun (yd : ℚ × ℕ) => decide (¬ mget mult yd.2 < 1/100)) =
      (fun (yd : ℚ × ℕ) => decide ((1 : ℚ)/100 ≤ mget mult yd.2)) := by
    funext yd
    simp [not_lt]
  rw [← hpred]
  exact filterMap_ite_eq_filter_map (fun (yd : ℚ × ℕ) => mget mult yd.2 < 1/100) _ _

lemma zip_take_min {α β : Type} (l1 : List α) (l2 : List β) :
    (l1.take (min l1.length l2.length)).zip (l2.take (min l1.length l2.length)) =
      l1.zip l2 := by
  induction l1 generalizing l2 with
  | nil => simp
  | cons a t ih =>
    cases l2 with
    | nil => simp
    | cons b u =>
      simp only [List.length_cons, List.zip_cons_cons]
      have : min (t.length + 1) (u.length + 1) = min t.length u.length + 1 := by omega
      rw [this]
      simp [List.take_succ_cons, ih]

lemma getD_map_range {α : Type} (f : ℕ → α) (n i : ℕ) (d : α) (h : i < n) :
    ((List.range n).map f).getD i d = f i := by
  rw [List.getD_eq_getElem?_getD, List.getElem?_map, List.getElem?_range h]
  rfl

lemma getD_of_length_le {α : Type} {s : List α} {i : ℕ} (h : s.length ≤ i) (d : α) :
    s.getD i d = d := by
  rw [List.getD_eq_getElem?_getD, List.getElem?_eq_none h]
  rfl

lemma mget_map_range (F : ℕ → ℚ) (d : ℕ) (hd : d < 7) :
    mget ((List.range 7).map (fun i => (i, F i))) d = F d := by
  interval_cases d <;> rfl

/-! ### Helper lemmas about the prior learner -/

lemma learnPriors_global (f : BayesianForecaster) (gs : List (String × List ℚ)) :
    (learnPriors f gs).global_prior = f.global_prior := by
  induction gs generalizing f with
  | nil => rfl
  | cons a t ih => simpa [learnPriors] using ih _

lemma learnStep_global (acc : BayesianForecaster) (cd : String × List ℚ) :
    (learnStep acc cd).global_prior = acc.global_prior := rfl

lemma learnStep_self (acc : BayesianForecaster) (cd : String × List ℚ) :
    (learnStep acc cd).category_priors cd.1 =
      some (if cd.2 = [] then acc.global_prior
        else ⟨acc.global_prior.alpha + cd.2.sum, acc.global_prior.beta + cd.2.length⟩) := by
  simp [learnStep]

lemma learnStep_other (acc : BayesianForecaster) (cd : String × List ℚ) (c : String)
    (h : c ≠ cd.1) : (learnStep acc cd).category_priors c = acc.category_priors c := by
  simp [learnStep, h]

lemma learnPriors_not_mem (f : BayesianForecaster) (gs : List (String × List ℚ))
    (cat : String) (h : cat ∉ gs.map Prod.fst) :
    (learnPriors f gs).category_priors cat = f.category_priors cat := by
  induction gs generalizing f with
  | nil => rfl
  | cons a t ih =>
    simp only [List.map_cons, List.mem_cons] at h
    push_neg at h
    have step := ih (learnStep f a) h.2
    rw [learnStep_other f a cat h.1] at step
    simpa [learnPriors] using step

lemma learnPriors_mem (f : BayesianForecaster) (gs : List (String × List ℚ))
    (cat : String) (data : List ℚ) (hmem : (cat, data) ∈ gs)
    (hnd : (gs.map Prod.fst).Nodup) :
    (learnPriors f gs).category_priors cat =
      some (if data = [] then f.global_prior
        else ⟨f.global_prior.alpha + data.sum, f.global_prior.beta + data.length⟩) := by
  induction gs generalizing f with
  | nil => simp at hmem
  | cons a t ih =>
    simp only [List.map_cons, List.nodup_cons] at hnd
    rcases List.mem_cons.mp hmem with heq | htail
    · subst heq
      have hnot : cat ∉ t.map Prod.fst := hnd.1
      have hrest := learnPriors_not_mem (learnStep f (cat, data)) t cat hnot
      rw [learnStep_self f (cat, data)] at hrest
      simpa [learnPriors] using hrest
    · have hcat_ne : cat ≠ a.1 := by
        intro hc
        exact hnd.1 (hc ▸ (List.mem_map.mpr ⟨(cat, data), htail, rfl⟩))
      have step := ih (learnStep f a) htail hnd.2
      rw [learnStep_global f a] at step
      simpa [learnPriors] using step

/-! ### Helper lemmas about the feature builder -/

lemma lookbackVals_eq_preceding (rows : List DayRow) (i : ℕ) :
    lookbackVals rows i = precedingSameDowVals rows i := by
  unfold lookbackVals precedingSameDowVals
  have hfun : ∀ j : ℕ,
      (if (i : ℤ) - 56 ≤ (j : ℤ) ∧ (j : ℤ) < (i : ℤ) - 1 ∧ j % 7 = i % 7 ∧
          (rows.getD j default).stockout = false
       then some (rows.getD j default).quantity else none) =
      (if (i : ℤ) - 56 ≤ (j : ℤ) ∧ (j : ℤ) ≤ (i : ℤ) - 1 ∧ j % 7 = i % 7 ∧
          (rows.getD j default).stockout = false
       then some (rows.getD j default).quantity else none) := by
    intro j
    refine if_congr ?_ rfl rfl
    constructor
    · rintro ⟨h1, h2, h3, h4⟩
      exact ⟨h1, by omega, h3, h4⟩
    · rintro ⟨h1, h2, h3, h4⟩
      exact ⟨h1, by omega, h3, h4⟩
  exact List.filterMap_congr (fun j _ => hfun j)

lemma adjustedQuantity_ge (rows : List DayRow) (i : ℕ)
    (h0 : 0 ≤ (rows.getD i default).quantity) :
    (rows.getD i default).quantity ≤ adjustedQuantity rows i := by
  simp only [adjustedQuantity]
  split_ifs with h1 h2
  · exact le_max_left _ _
  · linarith
  · exact le_refl _

lemma adjustedQuantity_eq_of_not_stockout (rows : List DayRow) (i : ℕ)
    (h : (rows.getD i default).stockout = false) :
    adjustedQuantity rows i = (rows.getD i default).quantity := by
  simp only [adjustedQuantity]
  rw [h]
  simp

lemma groupRows_qty_nonneg {rows : List TxRow} (h : ∀ r ∈ rows, 0 ≤ r.qty) :
    ∀ g ∈ groupRows rows, 0 ≤ g.qty := by
  intro g hg
  unfold groupRows at hg
  obtain ⟨k, _, rfl⟩ := List.mem_map.1 hg
  apply List.sum_nonneg
  intro x hx
  obtain ⟨r, hr, rfl⟩ := List.mem_map.1 hx
  exact h r (List.mem_of_mem_filter hr)

lemma series_getD_qty_nonneg (groupedM : List GroupedRow) (minD len j : ℕ)
    (h : ∀ g ∈ groupedM, 0 ≤ g.qty) :
    0 ≤ (((buildSeries groupedM minD len).getD j default)).quantity := by
  unfold buildSeries
  by_cases hj : j < len
  · rw [getD_map_range _ _ _ _ hj]
    cases hfind : groupedM.find? (fun (g : GroupedRow) => g.date = minD + j) with
    | none => norm_num
    | some g =>
      have hmem := List.mem_of_find?_eq_some hfind
      simpa using h g hmem
  · have hle : len ≤ j := Nat.le_of_not_lt hj
    rw [getD_of_length_le (by simpa using hle)]
    decide

/-! ### Helper lemmas about the orchestrator -/

lemma predictItem_length (f : BayesianForecaster) (hist : List ℚ)
    (dows fdates fdows : List ℕ) (cat : Option String)
    (prof : Option (List (ℕ × ℚ))) (draw : ℕ → ℚ → ℚ → ℕ → List ℕ × ℕ)
    (expQ : ℚ → ℚ) (rng : ℕ) :
    (predictItem f hist dows fdates fdows cat prof draw expQ rng).1.length =
      (fdates.zip fdows).length := by
  simp only [predictItem]
  exact reseasonalize_length _ _ _ _ _ _ _ _

lemma createTrainingDataset_error_eq {db : DB} {today : ℕ} {iid : Option ℕ}
    {daysHistory : ℕ} {e : String}
    (h : createTrainingDataset db today iid daysHistory = Except.error e) :
    e = reindexError := by
  simp only [createTrainingDataset] at h
  split at h
  · exact absurd h (by simp)
  · split at h
    · exact absurd h (by simp)
    · split at h
      · exact absurd h (by simp)
      · exact (Except.error.inj h).symm

lemma generateForecasts_map_length {db : DB} {today : ℕ} {name : String} {d : ℤ}
    {cat : Option String} {draw : ℕ → ℚ → ℚ → ℕ → List ℕ × ℕ} {expQ : ℚ → ℚ}
    {rng : ℕ} {df : List FeatRow}
    (h : createTrainingDataset db today (db.menuItems.lookup name) 365 = Except.ok df) :
    (generateForecasts db today name d cat draw expQ rng).map List.length =
      Except.ok d.toNat := by
  simp only [generateForecasts, h, Except.map]
  rw [List.length_map, List.enum_length, predictItem_length]
  simp


lemma featureRows_ok (groupedM : List GroupedRow) (minD len : ℕ)
    (hqm : ∀ g ∈ groupedM, 0 ≤ g.qty) :
    ∀ fr ∈ featureRows groupedM minD len,
      fr.quantity ≤ fr.adjusted_quantity ∧
        (fr.stockout = false → fr.adjusted_quantity = fr.quantity) := by
  intro fr hfr
  simp only [featureRows] at hfr
  rw [List.mem_filterMap] at hfr
  obtain ⟨i, hir, hsome⟩ := hfr
  rw [List.mem_range] at hir
  by_cases h7 : 7 ≤ i
  · rw [if_pos h7] at hsome
    obtain rfl := Option.some.inj hsome
    have hser := series_getD_qty_nonneg groupedM minD len i hqm
    have hadj := getD_map_range (fun j => adjustedQuantity (buildSeries groupedM minD len) j)
      len i (0 : ℚ) hir
    constructor
    · show ((buildSeries groupedM minD len).getD i default).quantity ≤ _
      rw [hadj]
      exact adjustedQuantity_ge _ i hser
    · intro hst
      show _ = ((buildSeries groupedM minD len).getD i default).quantity
      rw [hadj]
      exact adjustedQuantity_eq_of_not_stockout _ i hst
  · rw [if_neg h7] at hsome
    exact absurd hsome (by simp)

/-! ### Claim theorems -/

/-- C5: for every pooling group passed to `learn_priors` with a nonempty list
of nonnegative daily quantities summing to S, the learner assigns
`GammaPrior(alpha = 2.0 + S, beta = 0.5 + n)` (the fixed weak global prior
being `alpha=2.0, beta=0.5`); a group passed an empty list gets the global
prior unchanged; and the resulting alpha and beta are strictly positive. -/
theorem learn_priors_conjugate (groups : List (String × List ℚ)) (cat : String)
    (data : List ℚ) (hmem : (cat, data) ∈ groups) (hnd : (groups.map Prod.fst).Nodup)
    (hq : ∀ q ∈ data, 0 ≤ q) :
    (data ≠ [] → (learnPriors defaultForecaster groups).category_priors cat =
        some ⟨2 + data.sum, 1/2 + data.length⟩)
    ∧ (data = [] → (learnPriors defaultForecaster groups).category_priors cat =
        some defaultForecaster.global_prior)
    ∧ (∀ p, (learnPriors defaultForecaster groups).category_priors cat = some p →
        0 < p.alpha ∧ 0 < p.beta) := by
  have h := learnPriors_mem defaultForecaster groups cat data hmem hnd
  refine ⟨?_, ?_, ?_⟩
  · intro hne
    rw [h, if_neg hne]
    rfl
  · intro he
    rw [h, if_pos he]
  · intro p hp
    rw [h] at hp
    have hsum : 0 ≤ data.sum := List.sum_nonneg hq
    by_cases he : data = []
    · rw [if_pos he] at hp
      cases Option.some.inj hp
      constructor <;> norm_num [defaultForecaster, mkForecaster]
    · rw [if_neg he] at hp
      cases Option.some.inj hp
      have hlen : (0 : ℚ) ≤ data.length := by positivity
      constructor
      · show (0 : ℚ) < defaultForecaster.global_prior.alpha + data.sum
        have : defaultForecaster.global_prior.alpha = 2 := rfl
        rw [this]; linarith
      · show (0 : ℚ) < defaultForecaster.global_prior.beta + data.length
        have : defaultForecaster.global_prior.beta = 1/2 := rfl
        rw [this]; linarith

unseal Rat.add Rat.mul Rat.inv Rat.sub in
/-- Witness for C5 at a concrete group: two observations 3 and 5 give the
category prior `(2 + 8, 0.5 + 2)`. -/
theorem learn_priors_conjugate_witness :
    (learnPriors defaultForecaster [("Mains", [3, 5])]).category_priors "Mains" =
      some ⟨10, 5/2⟩ :=
  ((learn_priors_conjugate [("Mains", [3, 5])] "Mains" [3, 5] (by decide) (by decide)
    (by decide)).1 (by decide)).trans (by decide)

/-- C8: every multiplier of the profile returned by `_calculate_seasonality`
lies in the closed interval [0.3, 3.0], for every possible reference series. -/
theorem seasonality_bounds (s : List (ℕ × ℚ)) :
    ∀ p ∈ calcSeasonality s, 3/10 ≤ p.2 ∧ p.2 ≤ 3 := by
  intro p hp
  simp only [calcSeasonality] at hp
  split_ifs at hp
  · obtain ⟨i, _, rfl⟩ := List.mem_map.1 hp
    norm_num
  · obtain ⟨i, _, rfl⟩ := List.mem_map.1 hp
    norm_num
  · obtain ⟨i, _, rfl⟩ := List.mem_map.1 hp
    refine ⟨le_max_left _ _, ?_⟩
    exact max_le (by norm_num) (min_le_right _ _)

unseal Rat.add Rat.mul Rat.inv Rat.sub in
/-- Witness for C8: the day-of-week-0 multiplier of the series `s0` is 57/50
and lies in the bounds. -/
theorem seasonality_bounds_witness : 3/10 ≤ (57/50 : ℚ) ∧ (57/50 : ℚ) ≤ 3 :=
  seasonality_bounds s0 (0, 57/50) (by decide)

unseal Rat.add Rat.mul Rat.inv Rat.sub in
/-- C4: the Seasonality Estimator returns the flat all-1.0 profile for an
empty series or a zero overall mean; otherwise each day-of-week with data gets
the raw multiplier (mean on that day) / (overall mean), shrunk by 0.7/0.3 for
fewer than 4 observations and by 0.85/0.15 for fewer than 8, then clipped to
[0.3, 3.0]; and the profile is not renormalized to have mean 1.0 (witnessed by
a series whose profile mean differs from 1). -/
theorem seasonality_estimator_formula :
    (∀ s : List (ℕ × ℚ), s = [] → ∀ p ∈ calcSeasonality s, p.2 = 1)
    ∧ (∀ s : List (ℕ × ℚ), (s.map (·.2)).sum / (s.length : ℚ) = 0 →
        ∀ p ∈ calcSeasonality s, p.2 = 1)
    ∧ (∀ (s : List (ℕ × ℚ)) (d : ℕ), s ≠ [] →
        (s.map (·.2)).sum / (s.length : ℚ) ≠ 0 → d < 7 → dowRows s d ≠ [] →
        mget (calcSeasonality s) d =
          max (3/10) (min
            (if (dowRows s d).length < 4 then
              7/10 * (((dowRows s d).map (·.2)).sum / ((dowRows s d).length : ℚ) /
                ((s.map (·.2)).sum / (s.length : ℚ))) + 3/10
            else if (dowRows s d).length < 8 then
              85/100 * (((dowRows s d).map (·.2)).sum / ((dowRows s d).length : ℚ) /
                ((s.map (·.2)).sum / (s.length : ℚ))) + 15/100
            else ((dowRows s d).map (·.2)).sum / ((dowRows s d).length : ℚ) /
              ((s.map (·.2)).sum / (s.length : ℚ))) 3))
    ∧ (∃ s : List (ℕ × ℚ), (((calcSeasonality s).map (·.2)).sum) / 7 ≠ 1) := by
  refine ⟨?_, ?_, ?_, ?_⟩
  · intro s hs p hp
    subst hs
    simp only [calcSeasonality, if_pos rfl] at hp
    obtain ⟨i, _, rfl⟩ := List.mem_map.1 hp
    rfl
  · intro s hg p hp
    simp only [calcSeasonality] at hp
    split_ifs at hp with h1
    · obtain ⟨i, _, rfl⟩ := List.mem_map.1 hp
      rfl
    · obtain ⟨i, _, rfl⟩ := List.mem_map.1 hp
      rfl
  · intro s d hs hg hd hdi
    simp only [calcSeasonality, if_neg hs, if_neg hg]
    rw [mget_map_range _ _ hd]
    rw [if_neg hdi]
    split_ifs <;> ring_nf
  · exact ⟨s0, by decide⟩

unseal Rat.add Rat.mul Rat.inv Rat.sub in
/-- Witness for C4: on the series `s0` (dates 0 and 7 on day-of-week 0 with
quantities 4 and 0, date 1 on day-of-week 1 with quantity 1), the day-of-week-0
multiplier is 0.7 * ((4+0)/2 / (5/3)) + 0.3 = 57/50. -/
theorem seasonality_estimator_formula_witness :
    mget (calcSeasonality s0) 0 = 57/50 :=
  (seasonality_estimator_formula.2.2.1 s0 0 (by decide) (by decide) (by decide)
    (by decide)).trans (by decide)

/-- C1: `predict_item` discards every historical point whose day-of-week
multiplier is below 0.01, divides every remaining value by its multiplier,
and the base Negative-Binomial predictive distribution has
`r = prior_alpha + S_deseasonalized` and
`p = (prior_beta + n) / (prior_beta + n + 1)`, with the prior being the
category prior when one was learned for the requested category and the global
prior otherwise; with an empty history the posterior equals the selected prior
and one forecast is still produced per requested future date. -/
theorem predict_item_deseason_posterior (f : BayesianForecaster) (hist : List ℚ)
    (dows fdates fdows : List ℕ) (cat : Option String) (profile : List (ℕ × ℚ))
    (draw : ℕ → ℚ → ℚ → ℕ → List ℕ × ℕ) (expQ : ℚ → ℚ) (rng : ℕ)
    (hprof : profile ≠ []) :
    deseasonalize profile hist dows =
      ((hist.zip dows).filter (fun yd => decide ((1 : ℚ)/100 ≤ mget profile yd.2))).map
        (fun yd => yd.1 / mget profile yd.2)
    ∧ nbParams (posteriorParams (selectPrior f cat) (deseasonalize profile hist dows)) =
      ((selectPrior f cat).alpha +
        (((hist.zip dows).filter (fun yd => decide ((1 : ℚ)/100 ≤ mget profile yd.2))).map
          (fun yd => yd.1 / mget profile yd.2)).sum,
       ((selectPrior f cat).beta +
        (((hist.zip dows).filter (fun yd => decide ((1 : ℚ)/100 ≤ mget profile yd.2))).map
          (fun yd => yd.1 / mget profile yd.2)).length) /
       ((selectPrior f cat).beta +
        (((hist.zip dows).filter (fun yd => decide ((1 : ℚ)/100 ≤ mget profile yd.2))).map
          (fun yd => yd.1 / mget profile yd.2)).length + 1))
    ∧ (hist = [] →
        posteriorParams (selectPrior f cat) (deseasonalize profile hist dows) =
          selectPrior f cat)
    ∧ (∀ c p, cat = some c → c ≠ "" → f.category_priors c = some p →
        selectPrior f cat = p)
    ∧ (∀ c, cat = some c → f.category_priors c = none →
        selectPrior f cat = f.global_prior)
    ∧ (fdates.length = fdows.length →
        (predictItem f hist dows fdates fdows cat (some profile) draw expQ rng).1.length =
          fdates.length) := by
  have hds := deseasonalize_eq_filter_map profile hist dows
  refine ⟨hds, ?_, ?_, ?_, ?_, ?_⟩
  · rw [hds]
    rfl
  · intro hh
    subst hh
    have hnil : deseasonalize profile [] dows = [] := rfl
    rw [hnil]
    cases hsel : selectPrior f cat
    simp [posteriorParams]
  · intro c p hc hne hcp
    subst hc
    simp [selectPrior, hne, hcp]
  · intro c hc hcp
    subst hc
    by_cases hce : c = "" <;> simp [selectPrior, hce, hcp]
  · intro hlen
    rw [predictItem_length]
    simp [hlen]

unseal Rat.add Rat.mul Rat.inv Rat.sub in
/-- Witness for C1: with profile `prof0` (day 0 has multiplier 1/200 < 0.01,
day 1 has multiplier 2) and history `[2, 30]` on days `[0, 1]`, the day-0
point is discarded and the day-1 point is divided to 15; one forecast comes
out for the single requested future date. -/
theorem predict_item_deseason_posterior_witness :
    deseasonalize prof0 [2, 30] [0, 1] = [15] ∧
    (predictItem defaultForecaster [2, 30] [0, 1] [100] [2] (some "Mains") (some prof0)
      drawZero expOne 0).1.length = 1 := by
  have h := predict_item_deseason_posterior defaultForecaster [2, 30] [0, 1] [100] [2]
    (some "Mains") prof0 drawZero expOne 0 (by decide)
  exact ⟨h.1.trans (by decide), h.2.2.2.2.2 rfl⟩

/-- C2: every `ForecastDistribution` produced by `predict_item` has
`0 ≤ p10 ≤ p50 ≤ p90 ≤ p99` and `mean ≥ 0`, for every history and every
seasonal multiplier profile with nonnegative multipliers. -/
theorem predict_item_quantile_order (f : BayesianForecaster) (hist : List ℚ)
    (dows fdates fdows : List ℕ) (cat : Option String)
    (profileOpt : Option (List (ℕ × ℚ))) (draw : ℕ → ℚ → ℚ → ℕ → List ℕ × ℕ)
    (expQ : ℚ → ℚ) (rng : ℕ)
    (hm : ∀ ms, profileOpt = some ms → ∀ p ∈ ms, 0 ≤ p.2) :
    ∀ fc ∈ (predictItem f hist dows fdates fdows cat profileOpt draw expQ rng).1,
      0 ≤ fc.p10 ∧ fc.p10 ≤ fc.p50 ∧ fc.p50 ≤ fc.p90 ∧ fc.p90 ≤ fc.p99 ∧
        0 ≤ fc.mean := by
  intro fc hfc
  simp only [predictItem] at hfc
  obtain ⟨dd, rng2, hdd, rfl⟩ := mem_reseasonalize hfc
  refine mkForecast_ordered _ _ _ _ _ (mget_nonneg ?_ _)
  cases profileOpt with
  | none => exact flatProfile_nonneg
  | some ms =>
    show ∀ p ∈ (if ms = [] then flatProfile else ms), 0 ≤ p.2
    by_cases hms : ms = []
    · rw [if_pos hms]
      exact flatProfile_nonneg
    · rw [if_neg hms]
      exact hm ms rfl

unseal Rat.add Rat.mul Rat.inv Rat.sub in
/-- Witness for C2 at a concrete call: the single forecast produced from an
empty history with three samples 5, 0, 2 satisfies the quantile ordering. -/
theorem predict_item_quantile_order_witness :
    0 ≤ (mkForecast 100 1 [5, 0, 2] (1/2) 0).p10 ∧
    (mkForecast 100 1 [5, 0, 2] (1/2) 0).p10 ≤ (mkForecast 100 1 [5, 0, 2] (1/2) 0).p50 ∧
    (mkForecast 100 1 [5, 0, 2] (1/2) 0).p50 ≤ (mkForecast 100 1 [5, 0, 2] (1/2) 0).p90 ∧
    (mkForecast 100 1 [5, 0, 2] (1/2) 0).p90 ≤ (mkForecast 100 1 [5, 0, 2] (1/2) 0).p99 ∧
    0 ≤ (mkForecast 100 1 [5, 0, 2] (1/2) 0).mean :=
  predict_item_quantile_order defaultForecaster [] [] [100] [0] none none drawThree
    expOne 0 (fun ms h => nomatch h) (mkForecast 100 1 [5, 0, 2] (1/2) 0) (by decide)

/-- C3: for every day of the daily series flagged as a stockout, with H the
non-stockout same-day-of-week observations of the preceding 8 weeks, the
adjusted quantity is `max(raw, median H)` when H has at least 2 entries and
`raw * 1.3` otherwise. -/
theorem stockout_imputation_rule (rows : List DayRow) (i : ℕ)
    (hi : i < rows.length) (hs : (rows.getD i default).stockout = true) :
    adjustedQuantity rows i =
      if 2 ≤ (precedingSameDowVals rows i).length
      then max (rows.getD i default).quantity (median (precedingSameDowVals rows i))
      else (rows.getD i default).quantity * (13/10) := by
  simp only [adjustedQuantity]
  rw [hs, lookbackVals_eq_preceding]
  simp

unseal Rat.add Rat.mul Rat.inv Rat.sub in
/-- Witness for C3: in `rows0` the stockout day 14 has the two same-day-of-week
reference quantities 10 and 12, so the adjusted quantity is
`max(2, median [10, 12]) = 11`. -/
theorem stockout_imputation_rule_witness : adjustedQuantity rows0 14 = 11 :=
  (stockout_imputation_rule rows0 14 (by decide) (by decide)).trans (by decide)

/-- C9: in every row of the Feature Builder output, given nonnegative raw
transaction quantities, the adjusted quantity is at least the raw quantity,
with equality whenever the stockout flag is false. -/
theorem unconstraining_monotone (db : DB) (today : ℕ) (iid : Option ℕ)
    (daysHistory : ℕ) (recs : List FeatRow) (hq : ∀ r ∈ db.txRows, 0 ≤ r.qty)
    (hok : createTrainingDataset db today iid daysHistory = Except.ok recs) :
    ∀ fr ∈ recs,
      fr.quantity ≤ fr.adjusted_quantity ∧
        (fr.stockout = false → fr.adjusted_quantity = fr.quantity) := by
  intro fr hfr
  simp only [createTrainingDataset] at hok
  split at hok
  · obtain rfl := Except.ok.inj hok
    simp at hfr
  · split at hok
    · obtain rfl := Except.ok.inj hok
      simp at hfr
    · split at hok
      · obtain rfl := Except.ok.inj hok
        refine featureRows_ok _ _ _ ?_ fr hfr
        intro g hg
        obtain ⟨g0, hg0, rfl⟩ := List.mem_map.1 hg
        have hq0 : 0 ≤ g0.qty :=
          groupRows_qty_nonneg (fun r hr => hq r (List.mem_of_mem_filter hr)) g0 hg0
        split_ifs with hsplit
        · exact hq0
        · exact hq0
      · exact absurd hok (by simp)

unseal Rat.add Rat.mul Rat.inv Rat.sub in
/-- Witness for C9: the feature row `fr1` produced for `db1` satisfies both
parts of the monotonicity property. -/
theorem unconstraining_monotone_witness :
    fr1.quantity ≤ fr1.adjusted_quantity ∧
      (fr1.stockout = false → fr1.adjusted_quantity = fr1.quantity) :=
  unconstraining_monotone db1 10 (some 1) 365 [fr1] (by decide) (by decide) fr1
    (by decide)

/-- Counterexample for C6: with no transactions and a menu-item name that does
not resolve, `generate_forecasts` does not fail with a not-found error; it
still produces (and persists) a full week of forecasts. -/
theorem unknown_item_counterexample :
    db0.menuItems.lookup "Ghost" = none ∧
    (generateForecasts db0 1000 "Ghost" 7 none drawZero expOne 0).map List.length =
      Except.ok 7 :=
  ⟨rfl, generateForecasts_map_length rfl⟩

/-- C6 (amended): when the requested item name does not resolve to a menu
item, the orchestrator never fails with a not-found condition: it sets the
item id to `None` and silently proceeds without an item filter; when the
unfiltered dataset builds (at most one item sold per date), `days_ahead`
forecast records are produced and persisted, and the only possible failure is
the pandas duplicate-label reindex `ValueError` — not a not-found error. -/
theorem unknown_item_not_rejected (db : DB) (today : ℕ) (name : String) (d : ℤ)
    (cat : Option String) (draw : ℕ → ℚ → ℚ → ℕ → List ℕ × ℕ) (expQ : ℚ → ℚ)
    (rng : ℕ) (hunres : db.menuItems.lookup name = none) :
    (generateForecasts db today name d cat draw expQ rng).map List.length =
      Except.ok d.toNat
    ∨ generateForecasts db today name d cat draw expQ rng =
      Except.error reindexError := by
  cases hct : createTrainingDataset db today (db.menuItems.lookup name) 365 with
  | ok df => exact Or.inl (generateForecasts_map_length hct)
  | error e =>
    right
    have he := createTrainingDataset_error_eq hct
    subst he
    simp only [generateForecasts, hct]

/-- Witness for C6 (amended) at the concrete unresolved name. -/
theorem unknown_item_not_rejected_witness :
    (generateForecasts db0 1000 "Ghost" 3 none drawZero expOne 0).map List.length =
      Except.ok 3
    ∨ generateForecasts db0 1000 "Ghost" 3 none drawZero expOne 0 =
      Except.error reindexError :=
  unknown_item_not_rejected db0 1000 "Ghost" 3 none drawZero expOne 0 rfl

/-- Counterexample for C7: a request with mismatched history and day-of-week
array lengths is not rejected with a precondition-violation error; prediction
proceeds and produces a forecast. -/
theorem malformed_params_counterexample :
    ([3, 4] : List ℚ).length ≠ ([0] : List ℕ).length ∧
    (predictItem defaultForecaster [3, 4] [0] [100] [2] none none drawZero expOne 0).1.length
      = 1 := by
  refine ⟨by decide, ?_⟩
  rw [predictItem_length]
  rfl

/-- C7 (amended): neither malformed-parameter condition is checked anywhere:
mismatched history/day-of-week arrays are silently truncated to the shorter
length by `zip` and forecasting proceeds; and a negative horizon is never
rejected — when the dataset stage succeeds the run returns the empty record
list (the `range` of a negative count is empty), and the only possible
failure is the earlier pandas duplicate-label reindex `ValueError`, not a
precondition-violation error. -/
theorem malformed_params_not_rejected :
    (∀ (f : BayesianForecaster) (hist : List ℚ) (dows fdates fdows : List ℕ)
        (cat : Option String) (prof : Option (List (ℕ × ℚ)))
        (draw : ℕ → ℚ → ℚ → ℕ → List ℕ × ℕ) (expQ : ℚ → ℚ) (rng : ℕ),
      predictItem f hist dows fdates fdows cat prof draw expQ rng =
        predictItem f (hist.take (min hist.length dows.length))
          (dows.take (min hist.length dows.length)) fdates fdows cat prof draw expQ rng)
    ∧ (∀ (db : DB) (today : ℕ) (name : String) (d : ℤ) (cat : Option String)
        (draw : ℕ → ℚ → ℚ → ℕ → List ℕ × ℕ) (expQ : ℚ → ℚ) (rng : ℕ), d < 0 →
        generateForecasts db today name d cat draw expQ rng = Except.ok []
        ∨ generateForecasts db today name d cat draw expQ rng =
          Except.error reindexError) := by
  constructor
  · intro f hist dows fdates fdows cat prof draw expQ rng
    simp only [predictItem, deseasonalize]
    rw [zip_take_min]
  · intro db today name d cat draw expQ rng hd
    have h0 : d.toNat = 0 := Int.toNat_of_nonpos hd.le
    cases hct : createTrainingDataset db today (db.menuItems.lookup name) 365 with
    | ok df =>
      left
      simp [generateForecasts, hct, h0, predictItem, reseasonalize]
    | error e =>
      right
      have he := createTrainingDataset_error_eq hct
      subst he
      simp only [generateForecasts, hct]

/-- Witness for C7 (amended): a horizon of -3 yields the empty record list. -/
theorem malformed_params_not_rejected_witness :
    generateForecasts db0 1000 "Burger" (-3) none drawZero expOne 0 = Except.ok []
    ∨ generateForecasts db0 1000 "Burger" (-3) none drawZero expOne 0 =
      Except.error reindexError :=
  malformed_params_not_rejected.2 db0 1000 "Burger" (-3) none drawZero expOne 0
    (by decide)

/-- Counterexample for C10: there are no two calls of `predict_item` with the
same arguments whose sampled outputs differ; the fixed `np.random.seed(42)`
makes the output independent of the ambient generator state. -/
theorem fixed_seed_counterexample :
    ¬ ∃ (f : BayesianForecaster) (hist : List ℚ) (dows fdates fdows : List ℕ)
        (cat : Option String) (prof : Option (List (ℕ × ℚ)))
        (draw : ℕ → ℚ → ℚ → ℕ → List ℕ × ℕ) (expQ : ℚ → ℚ) (s1 s2 : ℕ),
      (predictItem f hist dows fdates fdows cat prof draw expQ s1).1 ≠
        (predictItem f hist dows fdates fdows cat prof draw expQ s2).1 := by
  rintro ⟨f, hist, dows, fdates, fdows, cat, prof, draw, expQ, s1, s2, hne⟩
  exact hne rfl

/-- C10 (amended): `predict_item` seeds the generator with the constant 42 on
every call, so its result — forecasts and final generator state alike — is
independent of the ambient generator state, and repeated calls over identical
inputs produce bit-identical sampled outputs. -/
theorem predict_item_state_independent (f : BayesianForecaster) (hist : List ℚ)
    (dows fdates fdows : List ℕ) (cat : Option String)
    (prof : Option (List (ℕ × ℚ))) (draw : ℕ → ℚ → ℚ → ℕ → List ℕ × ℕ)
    (expQ : ℚ → ℚ) (s1 s2 : ℕ) :
    predictItem f hist dows fdates fdows cat prof draw expQ s1 =
      predictItem f hist dows fdates fdows cat prof draw expQ s2 := rfl

end Flux
